import Mathlib

/-!
# TytoDB `src/native/io.c`: `write_data`

The C source is one function,

    int write_data(unsigned char* buffer, size_t len, const char* path) {
        FILE *file = fopen(path, "wb");
        if (file == NULL) { return 0; }
        size_t written = fwrite(buffer, sizeof(unsigned char), len, file);
        fclose(file);
        return written == len;
    }

It is embedded as a state-passing function over a `World` (file system, table
of open streams, log of the stdio calls made).  The three stdio calls it makes
are modelled after ISO C; every choice the operating system makes during a call
(whether the open is refused, how many items `fwrite` accepts, whether the
flush performed by `fclose` goes through) is an explicit argument, collected in
`Env`, so that every theorem quantifies over all of them.
-/

namespace TytoDB

/-! ## Data model -/

/-- An `unsigned char`. -/
abbrev Byte := Fin 256

/-- A path, as the operating system resolves it: the list of its components
from the root; the root directory is `[]`. -/
abbrev Path := List String

/-- A `FILE *` other than `NULL`. -/
abbrev Handle := Nat

/-- The `fopen` modes that open a file for writing. -/
inductive Mode where
  | w
  | wb
  | a
  | ab
  deriving DecidableEq, Repr

/-- Causes for which the operating system refuses to open a file. -/
inductive Errno where
  | EACCES
  | EROFS
  | ENOENT
  | EISDIR
  | EINVAL
  | EMFILE
  | ENOSPC
  | EIO
  deriving DecidableEq, Repr

/-- The stdio calls a program makes, with their arguments. -/
inductive Op where
  | fopen (path : Path) (mode : Mode)
  | fwrite (ptr : List Byte) (size nmemb : Nat) (stream : Handle)
  | fclose (stream : Handle)
  deriving DecidableEq, Repr

/-- The file system: the directories that exist besides the root, and the
regular files with their contents. -/
structure FS where
  dirs : List Path
  files : List (Path × List Byte)
  deriving DecidableEq, Repr

/-- An open stream: the file it is associated with and the bytes it has
accepted from `fwrite` that have not reached the file yet. -/
structure Stream where
  path : Path
  pending : List Byte
  deriving DecidableEq, Repr

/-- Everything a call can observe or change. -/
structure World where
  fs : FS
  streams : List (Handle × Stream)
  trace : List Op
  deriving DecidableEq, Repr

/-- The choices of the operating system during one call of `write_data`:
`openFault` is the cause for which the open is refused, if it is;
`accept` is the number of items `fwrite` manages to take;
`flush` is `none` when the flush performed by `fclose` goes through and
`some q` when it fails after `q` of the pending bytes. -/
structure Env where
  openFault : Option Errno
  accept : Nat
  flush : Option Nat
  deriving DecidableEq, Repr

/-- The value `EOF` of `<stdio.h>`. -/
def EOF : Int := -1

/-! ## File system -/

/-- The directory a path lies in. -/
def parent (p : Path) : Path := p.dropLast

/-- Whether `d` is an existing directory. -/
def FS.dirExists (fs : FS) (d : Path) : Bool := d == [] || fs.dirs.contains d

/-- The content of the regular file at `p`, if there is one. -/
def FS.lookup (fs : FS) (p : Path) : Option (List Byte) := fs.files.lookup p

/-- Set the content of the regular file at `p`, creating it when absent. -/
def FS.store (fs : FS) (p : Path) (c : List Byte) : FS :=
  { fs with files := (p, c) :: fs.files.filter (fun e => e.1 != p) }

/-- Append bytes to the regular file at `p`; a file that is gone stays gone. -/
def FS.append (fs : FS) (p : Path) (bs : List Byte) : FS :=
  match fs.lookup p with
  | none => fs
  | some c => fs.store p (c ++ bs)

/-- Every regular file lies in an existing directory. -/
def FS.wf (fs : FS) : Bool := fs.files.all (fun e => fs.dirExists (parent e.1))

/-! ## The stdio calls -/

/-- The handles of the open streams. -/
def World.handles (w : World) : List Handle := w.streams.map Prod.fst

/-- A handle different from every open one. -/
def freshHandle (ss : List (Handle × Stream)) : Handle :=
  (ss.map Prod.fst).foldr max 0 + 1

/-- Content a file starts with when opened in the given mode: the `w` modes
truncate, the `a` modes keep what is there. -/
def initialContent (mode : Mode) (old : Option (List Byte)) : List Byte :=
  match mode with
  | Mode.w | Mode.wb => []
  | Mode.a | Mode.ab => old.getD []

/-- The call `fopen(path, mode)` for a write mode.  It fails (`none`, the
`NULL` pointer) and leaves file system and streams alone when the operating
system refuses, when the directory of `path` does not exist, or when `path` is
a directory. Otherwise the file is created or truncated according to the mode
and a new stream is returned. -/
def fopen (fault : Option Errno) (path : Path) (mode : Mode) (w : World) :
    Option Handle × World :=
  let w1 : World := { w with trace := w.trace ++ [Op.fopen path mode] }
  match fault with
  | some _ => (none, w1)
  | none =>
    if !w.fs.dirExists (parent path) then (none, w1)
    else if w.fs.dirExists path then (none, w1)
    else
      let h := freshHandle w.streams
      (some h,
        { w1 with
          fs := w.fs.store path (initialContent mode (w.fs.lookup path))
          streams := (h, { path := path, pending := [] }) :: w.streams })

/-- The call `fwrite(ptr, size, nmemb, stream)`: returns the number of items
taken, which is `nmemb` unless a write error occurs (`accept < nmemb`), and `0`
without touching the stream when `size` or `nmemb` is zero.  `ptr` is the
memory the pointer gives access to; the caller guarantees it holds
`size * nmemb` bytes.  The stream is buffered: the bytes taken are queued on
it, and how many of them reach the file is settled when the stream is closed,
the only moment at which this program lets anyone look. -/
def fwrite (accept : Nat) (ptr : List Byte) (size nmemb : Nat) (stream : Handle)
    (w : World) : Nat × World :=
  let w1 : World := { w with trace := w.trace ++ [Op.fwrite ptr size nmemb stream] }
  if size = 0 ∨ nmemb = 0 then (0, w1)
  else
    match w.streams.lookup stream with
    | none => (0, w1)
    | some _ =>
      let items := min accept nmemb
      let bytes := ptr.take (items * size)
      (items,
        { w1 with
          streams := w.streams.map (fun e =>
            if e.1 = stream then (e.1, { e.2 with pending := e.2.pending ++ bytes })
            else e) })

/-- The call `fclose(stream)`: the pending bytes are flushed to the file (all
of them and the result is `0`, or only the first `q` and the result is `EOF`),
and the stream is released whether or not the flush went through. -/
def fclose (flush : Option Nat) (stream : Handle) (w : World) : Int × World :=
  let w1 : World := { w with trace := w.trace ++ [Op.fclose stream] }
  match w.streams.lookup stream with
  | none => (EOF, w1)
  | some s =>
    let out := match flush with
      | none => s.pending
      | some q => s.pending.take q
    (if flush.isNone then 0 else EOF,
      { w1 with
        fs := w.fs.append s.path out
        streams := w.streams.filter (fun e => e.1 != stream) })

/-! ## The program -/

/-- The function `write_data` of `src/native/io.c`.  `len` is a `size_t`; no
arithmetic is done on it, so its width plays no role.  The result of `fclose`
is discarded, as in the source; the `int` returned is the value of
`written == len`. -/
def write_data (env : Env) (buffer : List Byte) (len : Nat) (path : Path) (w : World) :
    Int × World :=
  let (file, w1) := fopen env.openFault path Mode.wb w
  match file with
  | none => (0, w1)
  | some file =>
    let (written, w2) := fwrite env.accept buffer 1 len file w1
    let (_, w3) := fclose env.flush file w2
    (if written = len then 1 else 0, w3)

/-! ## Derived notions -/

/-- The condition under which `fopen` succeeds on `path`: the operating system
does not refuse, the directory of `path` exists and `path` is not a directory. -/
def canOpen (fault : Option Errno) (path : Path) (w : World) : Bool :=
  fault.isNone && w.fs.dirExists (parent path) && !w.fs.dirExists path

/-- The bytes that reach the file when `fwrite` is given `len` bytes of `buffer`
and `fclose` then flushes: the bytes taken, cut where a failing flush stops. -/
def persisted (env : Env) (buffer : List Byte) (len : Nat) : List Byte :=
  match env.flush with
  | none => buffer.take (min env.accept len)
  | some q => (buffer.take (min env.accept len)).take q

/-! ## Scenarios -/

/-- A world with one directory `/tmp`, no files and no open streams. -/
def emptyTmp : World := { fs := { dirs := [["tmp"]], files := [] }, streams := [], trace := [] }

/-- A world in which `/tmp/out.bin` holds five bytes, and one stream is open
on another file. -/
def usedTmp : World :=
  { fs := { dirs := [["tmp"]], files := [(["tmp", "out.bin"], [9, 9, 9, 9, 9]), (["tmp", "log"], [7])] }
    streams := [(4, { path := ["tmp", "log"], pending := [8] })]
    trace := [Op.fopen ["tmp", "log"] Mode.ab, Op.fwrite [8] 1 1 4] }

/-- An environment without faults. -/
def calm : Env := { openFault := none, accept := 1000, flush := none }

/-- An environment in which `fwrite` takes everything and the flush of
`fclose` fails at once (a full disk). -/
def diskFull : Env := { openFault := none, accept := 1000, flush := some 0 }

/-! ## Lemmas on the model -/

theorem lookup_store_self (fs : FS) (p : Path) (c : List Byte) :
    (fs.store p c).lookup p = some c := by
  simp [FS.store, FS.lookup, List.lookup]

theorem store_store (fs : FS) (p : Path) (c d : List Byte) :
    (fs.store p c).store p d = fs.store p d := by
  simp [FS.store, List.filter_filter]

theorem append_store (fs : FS) (p : Path) (c bs : List Byte) :
    (fs.store p c).append p bs = fs.store p (c ++ bs) := by
  simp [FS.append, lookup_store_self, store_store]

theorem lt_freshHandle (ss : List (Handle × Stream)) :
    ∀ e ∈ ss, e.1 < freshHandle ss := by
  induction ss with
  | nil => intro e he; cases he
  | cons x xs ih =>
    intro e he
    simp only [freshHandle, List.map_cons, List.foldr_cons] at ih ⊢
    rcases List.mem_cons.mp he with rfl | h
    · exact Nat.lt_succ_of_le (Nat.le_max_left _ _)
    · exact Nat.lt_succ_of_le (Nat.le_trans (Nat.le_of_lt_succ (ih e h)) (Nat.le_max_right _ _))

theorem ne_freshHandle (ss : List (Handle × Stream)) :
    ∀ e ∈ ss, e.1 ≠ freshHandle ss :=
  fun e he => Nat.ne_of_lt (lt_freshHandle ss e he)

theorem filter_fresh (ss : List (Handle × Stream)) :
    ss.filter (fun e => e.1 != freshHandle ss) = ss := by
  apply List.filter_eq_self.mpr
  intro e he
  simpa using ne_freshHandle ss e he

theorem map_fresh (ss : List (Handle × Stream)) (g : Handle × Stream → Handle × Stream) :
    ss.map (fun e => if e.1 = freshHandle ss then g e else e) = ss := by
  conv => rhs; rw [← List.map_id ss]
  apply List.map_congr_left
  intro e he
  simp [ne_freshHandle ss e he]

theorem fopen_of_canOpen {fault : Option Errno} {path : Path} {w : World} (mode : Mode)
    (h : canOpen fault path w = true) :
    fopen fault path mode w =
      (some (freshHandle w.streams),
        { fs := w.fs.store path (initialContent mode (w.fs.lookup path))
          streams := (freshHandle w.streams, { path := path, pending := [] }) :: w.streams
          trace := w.trace ++ [Op.fopen path mode] }) := by
  simp only [canOpen, Bool.and_eq_true, Option.isNone_iff_eq_none, Bool.not_eq_true'] at h
  obtain ⟨⟨h1, h2⟩, h3⟩ := h
  subst h1
  simp [fopen, h2, h3]

theorem fopen_of_not_canOpen {fault : Option Errno} {path : Path} {w : World} (mode : Mode)
    (h : canOpen fault path w = false) :
    fopen fault path mode w = (none, { w with trace := w.trace ++ [Op.fopen path mode] }) := by
  cases fault with
  | some e => simp [fopen]
  | none =>
    simp only [canOpen, Option.isNone_none, Bool.true_and, Bool.and_eq_false_iff,
      Bool.not_eq_false'] at h
    rcases h with h | h
    · simp [fopen, h]
    · by_cases h2 : w.fs.dirExists (parent path) = true
      · simp [fopen, h, h2]
      · simp [fopen, h2]

/-- The complete effect of `write_data` when the open succeeds. -/
theorem write_data_of_canOpen (env : Env) (buffer : List Byte) (len : Nat) (path : Path)
    (w : World) (h : canOpen env.openFault path w = true) :
    write_data env buffer len path w =
      (if min env.accept len = len then 1 else 0,
        { fs := w.fs.store path (persisted env buffer len)
          streams := w.streams
          trace := w.trace ++ [Op.fopen path Mode.wb,
            Op.fwrite buffer 1 len (freshHandle w.streams),
            Op.fclose (freshHandle w.streams)] }) := by
  rw [write_data, fopen_of_canOpen Mode.wb h]
  simp only [fwrite, fclose, initialContent]
  by_cases hl : len = 0
  · subst hl
    simp [persisted, filter_fresh, append_store, List.lookup]
  · simp [hl, persisted, filter_fresh, map_fresh, append_store, List.lookup]

/-- The complete effect of `write_data` when the open fails. -/
theorem write_data_of_not_canOpen (env : Env) (buffer : List Byte) (len : Nat) (path : Path)
    (w : World) (h : canOpen env.openFault path w = false) :
    write_data env buffer len path w =
      (0, { w with trace := w.trace ++ [Op.fopen path Mode.wb] }) := by
  rw [write_data, fopen_of_not_canOpen Mode.wb h]

theorem canOpen_of_fopen_some {fault : Option Errno} {path : Path} {mode : Mode} {w : World}
    {file : Handle} (h : (fopen fault path mode w).1 = some file) :
    canOpen fault path w = true ∧ file = freshHandle w.streams := by
  cases hc : canOpen fault path w
  · rw [fopen_of_not_canOpen mode hc] at h; cases h
  · rw [fopen_of_canOpen mode hc] at h
    exact ⟨rfl, (Option.some.inj h).symm⟩

theorem canOpen_of_fopen_none {fault : Option Errno} {path : Path} {mode : Mode} {w : World}
    (h : (fopen fault path mode w).1 = none) : canOpen fault path w = false := by
  cases hc : canOpen fault path w
  · rfl
  · rw [fopen_of_canOpen mode hc] at h; cases h

/-- What `fwrite` reports on the stream `fopen` has just returned. -/
theorem fwrite_after_fopen (env : Env) (buffer : List Byte) (len : Nat) (path : Path)
    (w : World) (h : canOpen env.openFault path w = true) :
    (fwrite env.accept buffer 1 len (freshHandle w.streams)
      (fopen env.openFault path Mode.wb w).2).1 = min env.accept len := by
  rw [fopen_of_canOpen Mode.wb h]
  by_cases hl : len = 0
  · subst hl; simp [fwrite]
  · simp [fwrite, hl, List.lookup]

theorem lookup_none_of_wf (fs : FS) (p : Path) (hwf : fs.wf = true)
    (hp : fs.dirExists (parent p) = false) : fs.lookup p = none := by
  unfold FS.wf at hwf
  unfold FS.lookup
  generalize fs.files = l at hwf
  induction l with
  | nil => rfl
  | cons x xs ih =>
    simp only [List.all_cons, Bool.and_eq_true] at hwf
    obtain ⟨hx, hxs⟩ := hwf
    have hne : (p == x.1) = false := by
      apply beq_false_of_ne
      intro heq
      rw [heq, hx] at hp
      cases hp
    obtain ⟨a, b⟩ := x
    simp only [List.lookup, hne]
    exact ih hxs

/-- What `write_data` leaves at the path when the open succeeds: the bytes
that reached the file, whatever the path held before. -/
theorem write_data_content (env : Env) (buffer : List Byte) (len : Nat) (path : Path)
    (w : World) (h : canOpen env.openFault path w = true) :
    (write_data env buffer len path w).2.fs.lookup path = some (persisted env buffer len) := by
  rw [write_data_of_canOpen env buffer len path w h]
  exact lookup_store_self _ _ _

/-- Round trip when the flush of `fclose` goes through: a call that returns 1
leaves exactly the buffer in the file. -/
theorem write_data_roundtrip_of_flush (env : Env) (buffer : List Byte) (path : Path)
    (w : World) (h : canOpen env.openFault path w = true) (hflush : env.flush = none)
    (hret : (write_data env buffer buffer.length path w).1 = 1) :
    (write_data env buffer buffer.length path w).2.fs.lookup path = some buffer := by
  rw [write_data_content env buffer buffer.length path w h]
  rw [write_data_of_canOpen env buffer buffer.length path w h] at hret
  have hmin : min env.accept buffer.length = buffer.length := by
    by_contra hne
    simp [hne] at hret
  simp [persisted, hflush, hmin]

/-- A short count from `fwrite` is reported and not rolled back: when the open
succeeds, `fwrite` reports only `k < len` bytes and a failing flush does not
stop before them, `write_data` returns 0 and the file is left at the path
holding the first `k` bytes of the buffer, whatever the path held before. -/
theorem short_count_left_in_place (env : Env) (buffer : List Byte) (len : Nat)
    (path : Path) (w : World) (file : Handle) (k : Nat)
    (hopen : (fopen env.openFault path Mode.wb w).1 = some file)
    (hshort : (fwrite env.accept buffer 1 len file
      (fopen env.openFault path Mode.wb w).2).1 = k)
    (hk : k < len)
    (hpers : ∀ q, env.flush = some q → k ≤ q) :
    (write_data env buffer len path w).1 = 0 ∧
    (write_data env buffer len path w).2.fs.lookup path = some (buffer.take k) := by
  obtain ⟨h, hfile⟩ := canOpen_of_fopen_some hopen
  subst hfile
  rw [fwrite_after_fopen env buffer len path w h] at hshort
  rw [write_data_of_canOpen env buffer len path w h]
  have hne : ¬ min env.accept len = len := by omega
  refine ⟨by simp [hne], ?_⟩
  simp only [lookup_store_self, persisted, hshort]
  cases hf : env.flush with
  | none => rfl
  | some q =>
    have := hpers q hf
    simp only [List.take_take, Option.some.injEq]
    rw [Nat.min_eq_right this]

/-! ## The claims -/

/-- C1: when the open succeeds, `write_data` returns 1 exactly when the count
reported by `fwrite` equals `len`, returns 0 exactly when it differs, and
returns nothing but 0 or 1. -/
theorem write_data_result_iff_written_eq_len (env : Env) (buffer : List Byte) (len : Nat)
    (path : Path) (w : World) (file : Handle)
    (hopen : (fopen env.openFault path Mode.wb w).1 = some file) :
    ((write_data env buffer len path w).1 = 1 ↔
        (fwrite env.accept buffer 1 len file (fopen env.openFault path Mode.wb w).2).1 = len) ∧
    ((write_data env buffer len path w).1 = 0 ↔
        (fwrite env.accept buffer 1 len file (fopen env.openFault path Mode.wb w).2).1 ≠ len) ∧
    ((write_data env buffer len path w).1 = 0 ∨ (write_data env buffer len path w).1 = 1) := by
  unfold write_data
  rcases hf : fopen env.openFault path Mode.wb w with ⟨o, w1⟩
  rw [hf] at hopen
  simp only at hopen
  subst hopen
  simp only
  by_cases hw : (fwrite env.accept buffer 1 len file w1).1 = len
  · simp [hw]
  · simp [hw]

theorem write_data_result_iff_written_eq_len_witness :
    (fopen calm.openFault ["tmp", "out.bin"] Mode.wb emptyTmp).1 = some 1 ∧
    (((write_data calm [1, 2, 3] 3 ["tmp", "out.bin"] emptyTmp).1 = 1 ↔
        (fwrite calm.accept [1, 2, 3] 1 3 1
          (fopen calm.openFault ["tmp", "out.bin"] Mode.wb emptyTmp).2).1 = 3) ∧
    ((write_data calm [1, 2, 3] 3 ["tmp", "out.bin"] emptyTmp).1 = 0 ↔
        (fwrite calm.accept [1, 2, 3] 1 3 1
          (fopen calm.openFault ["tmp", "out.bin"] Mode.wb emptyTmp).2).1 ≠ 3) ∧
    ((write_data calm [1, 2, 3] 3 ["tmp", "out.bin"] emptyTmp).1 = 0 ∨
      (write_data calm [1, 2, 3] 3 ["tmp", "out.bin"] emptyTmp).1 = 1)) :=
  ⟨by decide,
   write_data_result_iff_written_eq_len calm [1, 2, 3] 3 ["tmp", "out.bin"] emptyTmp 1
     (by decide)⟩

/-- C2, the code at the failing input: the three bytes are taken by `fwrite`,
the flush of `fclose` fails, `fclose` reports the failure, and `write_data`
still returns 1 although the file it leaves is empty. Without the fault the
same call returns 1 and leaves the three bytes in the file. -/
theorem write_data_success_without_content :
    (write_data calm [1, 2, 3] 3 ["tmp", "out.bin"] emptyTmp).1 = 1 ∧
    (write_data calm [1, 2, 3] 3 ["tmp", "out.bin"] emptyTmp).2.fs.lookup ["tmp", "out.bin"]
      = some [1, 2, 3] ∧
    (write_data diskFull [1, 2, 3] 3 ["tmp", "out.bin"] emptyTmp).1 = 1 ∧
    (write_data diskFull [1, 2, 3] 3 ["tmp", "out.bin"] emptyTmp).2.fs.lookup ["tmp", "out.bin"]
      = some [] ∧
    (fclose diskFull.flush 1
      (fwrite diskFull.accept [1, 2, 3] 1 3 1
        (fopen diskFull.openFault ["tmp", "out.bin"] Mode.wb emptyTmp).2).2).1 = EOF := by
  decide

/-- C3: when the open fails, for whatever cause, `write_data` returns 0, the
only stdio call made is the `fopen` (no `fwrite`, no `fclose`), and the result
is the same as that of any other run whose open fails. -/
theorem write_data_open_failure (env : Env) (buffer : List Byte) (len : Nat) (path : Path)
    (w : World) (hfail : (fopen env.openFault path Mode.wb w).1 = none) :
    (write_data env buffer len path w).1 = 0 ∧
    (write_data env buffer len path w).2.trace = w.trace ++ [Op.fopen path Mode.wb] ∧
    (∀ (env2 : Env) (buffer2 : List Byte) (len2 : Nat) (path2 : Path) (w2 : World),
      (fopen env2.openFault path2 Mode.wb w2).1 = none →
      (write_data env2 buffer2 len2 path2 w2).1 = (write_data env buffer len path w).1) := by
  have h := canOpen_of_fopen_none hfail
  rw [write_data_of_not_canOpen env buffer len path w h]
  refine ⟨rfl, rfl, ?_⟩
  intro env2 buffer2 len2 path2 w2 h2
  rw [write_data_of_not_canOpen env2 buffer2 len2 path2 w2 (canOpen_of_fopen_none h2)]

theorem write_data_open_failure_witness :
    (fopen (some Errno.EACCES) ["tmp", "out.bin"] Mode.wb usedTmp).1 = none ∧
    ((write_data { calm with openFault := some Errno.EACCES } [1, 2, 3] 3 ["tmp", "out.bin"]
        usedTmp).1 = 0 ∧
    (write_data { calm with openFault := some Errno.EACCES } [1, 2, 3] 3 ["tmp", "out.bin"]
        usedTmp).2.trace = usedTmp.trace ++ [Op.fopen ["tmp", "out.bin"] Mode.wb] ∧
    (∀ (env2 : Env) (buffer2 : List Byte) (len2 : Nat) (path2 : Path) (w2 : World),
      (fopen env2.openFault path2 Mode.wb w2).1 = none →
      (write_data env2 buffer2 len2 path2 w2).1 =
        (write_data { calm with openFault := some Errno.EACCES } [1, 2, 3] 3 ["tmp", "out.bin"]
          usedTmp).1)) :=
  ⟨by decide,
   write_data_open_failure { calm with openFault := some Errno.EACCES } [1, 2, 3] 3
     ["tmp", "out.bin"] usedTmp (by decide)⟩

/-- C4: when the path can be opened, `write_data` with `len = 0` returns 1 and
leaves an existing file of size 0 at the path, whatever the buffer, the
previous content and the outcome of the close. -/
theorem write_data_zero_length (env : Env) (buffer : List Byte) (path : Path) (w : World)
    (file : Handle) (hopen : (fopen env.openFault path Mode.wb w).1 = some file) :
    (write_data env buffer 0 path w).1 = 1 ∧
    ∃ content, (write_data env buffer 0 path w).2.fs.lookup path = some content ∧
      content.length = 0 := by
  have h := (canOpen_of_fopen_some hopen).1
  rw [write_data_of_canOpen env buffer 0 path w h]
  refine ⟨by simp, [], ?_, rfl⟩
  simp only [lookup_store_self, persisted, Nat.min_zero, List.take_zero]
  cases env.flush <;> simp

theorem write_data_zero_length_witness :
    (fopen calm.openFault ["tmp", "empty.bin"] Mode.wb emptyTmp).1 = some 1 ∧
    ((write_data calm [] 0 ["tmp", "empty.bin"] emptyTmp).1 = 1 ∧
    ∃ content, (write_data calm [] 0 ["tmp", "empty.bin"] emptyTmp).2.fs.lookup
        ["tmp", "empty.bin"] = some content ∧ content.length = 0) :=
  ⟨by decide, write_data_zero_length calm [] ["tmp", "empty.bin"] emptyTmp 1 (by decide)⟩

/-- C5, the code at the failing input: the path holds five bytes, the three
bytes of the buffer are taken by `fwrite`, the flush of `fclose` fails after
one byte, and `write_data` returns 1 although the file holds one byte, not the
three of the buffer. -/
theorem write_data_success_with_shorter_file :
    usedTmp.fs.lookup ["tmp", "out.bin"] = some [9, 9, 9, 9, 9] ∧
    (write_data { diskFull with flush := some 1 } [1, 2, 3] 3 ["tmp", "out.bin"] usedTmp).1 = 1 ∧
    (write_data { diskFull with flush := some 1 } [1, 2, 3] 3 ["tmp", "out.bin"]
      usedTmp).2.fs.lookup ["tmp", "out.bin"] = some [1] := by
  decide

/-- C6: when the directory of the path does not exist, `write_data` returns 0
and leaves the file system as it was: no file at the path, no new directory. -/
theorem write_data_missing_parent (env : Env) (buffer : List Byte) (len : Nat) (path : Path)
    (w : World) (hwf : w.fs.wf = true) (hno : w.fs.dirExists (parent path) = false) :
    (write_data env buffer len path w).1 = 0 ∧
    (write_data env buffer len path w).2.fs = w.fs ∧
    (write_data env buffer len path w).2.fs.lookup path = none ∧
    (write_data env buffer len path w).2.fs.dirs = w.fs.dirs := by
  have h : canOpen env.openFault path w = false := by simp [canOpen, hno]
  rw [write_data_of_not_canOpen env buffer len path w h]
  exact ⟨rfl, rfl, lookup_none_of_wf w.fs path hwf hno, rfl⟩

theorem write_data_missing_parent_witness :
    (usedTmp.fs.wf = true ∧ usedTmp.fs.dirExists (parent ["nodir", "out.bin"]) = false) ∧
    ((write_data calm [1, 2, 3] 3 ["nodir", "out.bin"] usedTmp).1 = 0 ∧
    (write_data calm [1, 2, 3] 3 ["nodir", "out.bin"] usedTmp).2.fs = usedTmp.fs ∧
    (write_data calm [1, 2, 3] 3 ["nodir", "out.bin"] usedTmp).2.fs.lookup ["nodir", "out.bin"]
      = none ∧
    (write_data calm [1, 2, 3] 3 ["nodir", "out.bin"] usedTmp).2.fs.dirs = usedTmp.fs.dirs) :=
  ⟨by decide,
   write_data_missing_parent calm [1, 2, 3] 3 ["nodir", "out.bin"] usedTmp (by decide)
     (by decide)⟩

/-- C7: after `write_data` the open handles are those open before it. When the
open succeeds the handle is a new one and the log gains exactly one `fclose` of
it, placed after the `fwrite`; when the open fails no handle is acquired and no
`fclose` is logged. -/
theorem write_data_no_handle_leak (env : Env) (buffer : List Byte) (len : Nat) (path : Path)
    (w : World) :
    (write_data env buffer len path w).2.handles = w.handles ∧
    (match (fopen env.openFault path Mode.wb w).1 with
      | some file =>
        file ∉ w.handles ∧
        (fopen env.openFault path Mode.wb w).2.handles = file :: w.handles ∧
        (write_data env buffer len path w).2.trace.count (Op.fclose file) =
          w.trace.count (Op.fclose file) + 1 ∧
        ∃ before, (write_data env buffer len path w).2.trace =
          before ++ [Op.fwrite buffer 1 len file, Op.fclose file]
      | none =>
        (fopen env.openFault path Mode.wb w).2.handles = w.handles ∧
        ∀ h, (write_data env buffer len path w).2.trace.count (Op.fclose h) =
          w.trace.count (Op.fclose h)) := by
  cases h : canOpen env.openFault path w
  · rw [write_data_of_not_canOpen env buffer len path w h, fopen_of_not_canOpen Mode.wb h]
    refine ⟨rfl, rfl, ?_⟩
    intro h
    simp [List.count_append]
  · rw [write_data_of_canOpen env buffer len path w h, fopen_of_canOpen Mode.wb h]
    refine ⟨rfl, ?_, rfl, ?_, w.trace ++ [Op.fopen path Mode.wb], by simp⟩
    · intro hmem
      obtain ⟨e, he, heq⟩ := List.mem_map.mp hmem
      exact ne_freshHandle w.streams e he heq
    · simp [List.count_append, List.count_cons]

/-- C8, the code at the failing input: the path holds five bytes, the open
succeeds, `fwrite` takes the four bytes of the buffer and reports 4, and the
flush of `fclose` fails after two of them. Only 2 < 4 bytes are persisted and
the file is left at the path holding the first two bytes of the buffer, yet
`write_data` returns 1, not 0. -/
theorem write_data_success_on_partial_write :
    (fopen none ["tmp", "out.bin"] Mode.wb usedTmp).1 = some 5 ∧
    (fwrite 1000 [1, 2, 3, 4] 1 4 5 (fopen none ["tmp", "out.bin"] Mode.wb usedTmp).2).1 = 4 ∧
    (write_data { openFault := none, accept := 1000, flush := some 2 } [1, 2, 3, 4] 4
      ["tmp", "out.bin"] usedTmp).2.fs.lookup ["tmp", "out.bin"]
      = some (List.take 2 [1, 2, 3, 4]) ∧
    2 < 4 ∧
    (write_data { openFault := none, accept := 1000, flush := some 2 } [1, 2, 3, 4] 4
      ["tmp", "out.bin"] usedTmp).1 = 1 ∧
    (write_data { openFault := none, accept := 1000, flush := some 2 } [1, 2, 3, 4] 4
      ["tmp", "out.bin"] usedTmp).1 ≠ 0 := by
  decide

/-- C10: the result of `write_data` does not depend on the outcome of the
close. Two runs on the same buffer, `len` and path, started in any two worlds,
in which the open succeeds and `fwrite` reports the same count return the same
value, whatever their flushes do; and a run in which `fwrite` reports `len`
returns 1 also when `fclose` fails. -/
theorem write_data_result_ignores_close (env1 env2 : Env) (buffer : List Byte) (len : Nat)
    (path : Path) (w1 w2 : World) (file1 file2 : Handle)
    (hopen1 : (fopen env1.openFault path Mode.wb w1).1 = some file1)
    (hopen2 : (fopen env2.openFault path Mode.wb w2).1 = some file2)
    (hcount : (fwrite env1.accept buffer 1 len file1
        (fopen env1.openFault path Mode.wb w1).2).1 =
      (fwrite env2.accept buffer 1 len file2 (fopen env2.openFault path Mode.wb w2).2).1) :
    (write_data env1 buffer len path w1).1 = (write_data env2 buffer len path w2).1 ∧
    ((fwrite env1.accept buffer 1 len file1 (fopen env1.openFault path Mode.wb w1).2).1 = len →
      (fclose env1.flush file1
        (fwrite env1.accept buffer 1 len file1
          (fopen env1.openFault path Mode.wb w1).2).2).1 = EOF →
      (write_data env1 buffer len path w1).1 = 1) := by
  obtain ⟨h1, hf1⟩ := canOpen_of_fopen_some hopen1
  obtain ⟨h2, hf2⟩ := canOpen_of_fopen_some hopen2
  subst hf1 hf2
  rw [fwrite_after_fopen env1 buffer len path w1 h1,
    fwrite_after_fopen env2 buffer len path w2 h2] at hcount
  rw [fwrite_after_fopen env1 buffer len path w1 h1,
    write_data_of_canOpen env1 buffer len path w1 h1,
    write_data_of_canOpen env2 buffer len path w2 h2]
  refine ⟨by simp only [hcount], ?_⟩
  intro hfull _
  simp [hfull]

theorem write_data_result_ignores_close_witness :
    ((fopen diskFull.openFault ["tmp", "out.bin"] Mode.wb emptyTmp).1 = some 1 ∧
      (fopen calm.openFault ["tmp", "out.bin"] Mode.wb usedTmp).1 = some 5 ∧
      (fwrite diskFull.accept [1, 2, 3] 1 3 1
          (fopen diskFull.openFault ["tmp", "out.bin"] Mode.wb emptyTmp).2).1 =
        (fwrite calm.accept [1, 2, 3] 1 3 5
          (fopen calm.openFault ["tmp", "out.bin"] Mode.wb usedTmp).2).1) ∧
    ((write_data diskFull [1, 2, 3] 3 ["tmp", "out.bin"] emptyTmp).1 =
        (write_data calm [1, 2, 3] 3 ["tmp", "out.bin"] usedTmp).1 ∧
      ((fwrite diskFull.accept [1, 2, 3] 1 3 1
          (fopen diskFull.openFault ["tmp", "out.bin"] Mode.wb emptyTmp).2).1 = 3 →
        (fclose diskFull.flush 1
          (fwrite diskFull.accept [1, 2, 3] 1 3 1
            (fopen diskFull.openFault ["tmp", "out.bin"] Mode.wb emptyTmp).2).2).1 = EOF →
        (write_data diskFull [1, 2, 3] 3 ["tmp", "out.bin"] emptyTmp).1 = 1)) :=
  ⟨⟨by decide, by decide, by decide⟩,
   write_data_result_ignores_close diskFull calm [1, 2, 3] 3 ["tmp", "out.bin"] emptyTmp
     usedTmp 1 5 (by decide) (by decide) (by decide)⟩

end TytoDB
